import Mathlib

set_option maxRecDepth 8000

/-!
Verification development for the movie-generator service in `src/main.py`.

The Python source is shallowly embedded below:

* pure string manipulation (`str.strip`, `str.upper`, `str.split`,
  `str.splitlines`) is translated to executable Lean functions on
  `String`/`List Char`;
* the script parser `parse_script_with_characters` (lines 44-75) becomes a
  fold over the parsed lines, with the Python aliasing of the `current`
  scene dict onto the last list element made explicit;
* the job orchestrator `worker_render_movie` (lines 184-281) becomes a
  function from an environment of external stage outcomes (TTS, rendering,
  muxing, concatenation, preview — the opaque executors) to the sequence of
  `JOB_STORE` record states produced by its field writes, together with the
  list of stage invocations it performs and the exception it caught, if any.
-/

/-- The character class Python's `str.strip()` removes and `str.split()`
splits on (Unicode whitespace as recognised by `str.isspace`).  Used by the
line handling in `parse_script_with_characters` (src/main.py lines 56, 63-64)
and by `str.split()` in the scene-duration expression (line 230). -/
def isPySpace (c : Char) : Bool :=
  let n := c.toNat
  n = 0x20 || (0x9 ≤ n && n ≤ 0xd) || (0x1c ≤ n && n ≤ 0x1f) || n = 0x85 ||
  n = 0xa0 || n = 0x1680 || (0x2000 ≤ n && n ≤ 0x200a) || n = 0x2028 ||
  n = 0x2029 || n = 0x202f || n = 0x205f || n = 0x3000

/-- The line-boundary characters of Python's `str.splitlines()`, used on the
script text at src/main.py line 55. -/
def isLineBreak (c : Char) : Bool :=
  let n := c.toNat
  n = 0xa || n = 0xd || n = 0xb || n = 0xc || n = 0x1c || n = 0x1d ||
  n = 0x1e || n = 0x85 || n = 0x2028 || n = 0x2029

/-- Helper for `splitlines`: accumulates the current line (reversed) while
scanning; `"\r\n"` counts as a single boundary, and a trailing boundary does
not produce an extra empty line (Python `str.splitlines` semantics). -/
def splitlinesAux : List Char → List Char → List String
  | [], acc => if acc.isEmpty then [] else [String.mk acc.reverse]
  | '\r' :: '\n' :: rest, acc => String.mk acc.reverse :: splitlinesAux rest []
  | c :: rest, acc =>
    if isLineBreak c then String.mk acc.reverse :: splitlinesAux rest []
    else splitlinesAux rest (c :: acc)

/-- Python `script.splitlines()` (src/main.py line 55). -/
def splitlines (s : String) : List String := splitlinesAux s.toList []

/-- Python `str.strip()` on a character list: drop whitespace from both
ends. -/
def pyStripList (l : List Char) : List Char :=
  ((l.dropWhile isPySpace).reverse.dropWhile isPySpace).reverse

/-- Python `str.strip()` (src/main.py lines 56, 63, 64). -/
def pyStrip (s : String) : String := String.mk (pyStripList s.toList)

/-- Python `str.upper()` restricted to ASCII letters, the alphabet the
speaker tags of the source use (src/main.py line 63: `name.strip().upper()`).
Non-ASCII characters are left unchanged. -/
def pyUpper (s : String) : String := String.mk (s.toList.map Char.toUpper)

/-- Helper for `pySplit`: splits into maximal runs of non-whitespace. -/
def pySplitAux : List Char → List Char → List String
  | [], acc => if acc.isEmpty then [] else [String.mk acc.reverse]
  | c :: rest, acc =>
    if isPySpace c then
      if acc.isEmpty then pySplitAux rest []
      else String.mk acc.reverse :: pySplitAux rest []
    else pySplitAux rest (c :: acc)

/-- Python `str.split()` with no arguments: split on whitespace runs and
discard empty pieces (src/main.py line 230: `sc["text"].split()`). -/
def pySplit (s : String) : List String := pySplitAux s.toList []

/-- `len(text.split())` — the word count used by the duration policy. -/
def wordCount (text : String) : Nat := (pySplit text).length

/-- A parsed scene: the `{"character": ..., "text": ...}` dict produced by
`parse_script_with_characters` (src/main.py lines 65, 73). -/
structure Scene where
  character : String
  text : String
deriving DecidableEq

/-- The scene built from a stripped line that contains `':'`
(src/main.py lines 62-65): `name, text = line.split(":", 1)`,
speaker `name.strip().upper()`, text `text.strip()`. -/
def taggedScene (line : List Char) : Scene :=
  ⟨pyUpper (String.mk (pyStripList (line.takeWhile (fun c => c ≠ ':')))),
   String.mk (pyStripList ((line.dropWhile (fun c => c ≠ ':')).drop 1))⟩

/-- `current["text"] += " " + line` (src/main.py line 70).  In Python
`current` aliases the scene dict already appended to `scenes`, so the
mutation updates the last element of the list. -/
def appendToLast : List Scene → String → List Scene
  | [], _ => []
  | sc :: rest, extra =>
    if rest.isEmpty then [⟨sc.character, sc.text ++ " " ++ extra⟩]
    else sc :: appendToLast rest extra

/-- One iteration of the `for raw in script.splitlines()` loop of
`parse_script_with_characters` (src/main.py lines 55-74).  The state is the
scene list built so far plus a flag recording whether `current` is not
`None` (in which case it aliases the last scene of the list). -/
def parseStep (st : List Scene × Bool) (raw : String) : List Scene × Bool :=
  let line := pyStripList raw.toList
  if line.isEmpty then (st.1, false)
  else if line.contains ':' then (st.1 ++ [taggedScene line], true)
  else if st.2 then (appendToLast st.1 (String.mk line), true)
  else (st.1 ++ [⟨"NARRATOR", String.mk line⟩], true)

/-- `parse_script_with_characters` (src/main.py lines 44-75). -/
def parse_script_with_characters (script : String) : List Scene :=
  ((splitlines script).foldl parseStep ([], false)).1

example : parse_script_with_characters "NARRATOR: The world was quiet.\nALICE: Hello there!\nBOB: Hi." =
    [⟨"NARRATOR", "The world was quiet."⟩, ⟨"ALICE", "Hello there!"⟩, ⟨"BOB", "Hi."⟩] := by decide

example : parse_script_with_characters "A: hi\nthere\n\nworld" =
    [⟨"A", "hi there"⟩, ⟨"NARRATOR", "world"⟩] := by decide

example : parse_script_with_characters "" = [] := by decide

/-! ### Basic facts about the Python string helpers -/

theorem toList_mk (l : List Char) : (String.mk l).toList = l := rfl

theorem mk_eq_empty_iff (l : List Char) : String.mk l = "" ↔ l = [] := by
  constructor
  · intro h; exact congrArg String.data h
  · intro h; rw [h]

theorem dropWhile_exists_not (p : Char → Bool) :
    ∀ l : List Char, l.dropWhile p ≠ [] → ∃ c ∈ l.dropWhile p, p c = false := by
  intro l
  induction l with
  | nil => intro h; simp at h
  | cons c rest ih =>
    intro h
    by_cases hc : p c
    · rw [List.dropWhile_cons, if_pos hc] at h ⊢
      exact ih h
    · rw [List.dropWhile_cons, if_neg hc]
      exact ⟨c, List.mem_cons_self c rest, Bool.eq_false_iff.mpr hc⟩

theorem dropWhile_eq_nil_all (p : Char → Bool) :
    ∀ l : List Char, l.dropWhile p = [] → ∀ c ∈ l, p c = true := by
  intro l
  induction l with
  | nil => intro _ c hc; simp at hc
  | cons a rest ih =>
    intro h c hc
    by_cases ha : p a
    · rw [List.dropWhile_cons, if_pos ha] at h
      rcases List.mem_cons.mp hc with rfl | hc'
      · exact ha
      · exact ih h c hc'
    · rw [List.dropWhile_cons, if_neg ha] at h
      simp at h

theorem pyStripList_ne_nil_nonspace {l : List Char} (h : pyStripList l ≠ []) :
    ∃ c ∈ pyStripList l, isPySpace c = false := by
  unfold pyStripList at h ⊢
  set X := (l.dropWhile isPySpace).reverse with hX
  have h2 : X.dropWhile isPySpace ≠ [] := by
    intro hnil
    apply h
    rw [hnil]
    rfl
  rcases dropWhile_exists_not isPySpace X h2 with ⟨c, hc, hcp⟩
  exact ⟨c, List.mem_reverse.mpr hc, hcp⟩

theorem pyStripList_ne_nil_of_nonspace {l : List Char} {c : Char}
    (hc : c ∈ l) (hns : isPySpace c = false) : pyStripList l ≠ [] := by
  intro hnil
  unfold pyStripList at hnil
  have h1 : ((l.dropWhile isPySpace).reverse.dropWhile isPySpace) = [] := by
    have := congrArg List.reverse hnil
    simpa using this
  have h2 : ∀ d ∈ (l.dropWhile isPySpace).reverse, isPySpace d = true :=
    dropWhile_eq_nil_all isPySpace _ h1
  have h3 : ∀ d ∈ l.dropWhile isPySpace, isPySpace d = true := by
    intro d hd; exact h2 d (List.mem_reverse.mpr hd)
  have hsplit : c ∈ l.takeWhile isPySpace ++ l.dropWhile isPySpace := by
    rw [List.takeWhile_append_dropWhile]; exact hc
  rcases List.mem_append.mp hsplit with h4 | h4
  · rw [List.mem_takeWhile_imp h4] at hns; exact Bool.noConfusion hns
  · rw [h3 c h4] at hns; exact Bool.noConfusion hns

/-! ### C4: scripts whose non-blank lines all carry the separator -/

theorem foldl_parseStep_tagged (lines : List String) :
    ∀ (acc : List Scene) (b : Bool),
      (∀ l ∈ lines, pyStripList l.toList ≠ [] →
         (pyStripList l.toList).contains ':' = true) →
      (lines.foldl parseStep (acc, b)).1
        = acc ++ ((lines.map (fun l => pyStripList l.toList)).filter
            (fun l => !l.isEmpty)).map taggedScene := by
  induction lines with
  | nil => intro acc b _; simp
  | cons l rest ih =>
    intro acc b H
    have Hrest : ∀ l' ∈ rest, pyStripList l'.toList ≠ [] →
        (pyStripList l'.toList).contains ':' = true := by
      intro l' hl'; exact H l' (List.mem_cons_of_mem l hl')
    by_cases hl : (pyStripList l.toList).isEmpty
    · have hl' : pyStripList l.data = [] := List.isEmpty_iff.mp hl
      have hstep : parseStep (acc, b) l = (acc, false) := by
        simp [parseStep, hl']
      simp only [List.foldl_cons, hstep, List.map_cons, List.filter_cons, hl,
        Bool.not_true]
      exact ih acc false Hrest
    · have hne : pyStripList l.toList ≠ [] := by
        simpa [List.isEmpty_iff] using hl
      have hc := H l (List.mem_cons_self l rest) hne
      have hc' : ':' ∈ pyStripList l.data := by simpa using hc
      have hne' : ¬ pyStripList l.data = [] := hne
      have hstep : parseStep (acc, b) l
          = (acc ++ [taggedScene (pyStripList l.toList)], true) := by
        simp [parseStep, hne', hc']
      simp only [List.foldl_cons, hstep, List.map_cons, List.filter_cons, hl,
        Bool.not_false, List.map_cons]
      rw [ih (acc ++ [taggedScene (pyStripList l.toList)]) true Hrest]
      simp

/-- C4: if every non-blank line of the script contains the separator `':'`,
the parser returns exactly one scene per such line, in line order, the
scene being `taggedScene` of the stripped line — speaker is the text before
the first `':'`, trimmed and upper-cased; text is the text after the first
`':'`, trimmed. -/
theorem parser_tagged_scripts (script : String)
    (H : ∀ l ∈ splitlines script, pyStripList l.toList ≠ [] →
       (pyStripList l.toList).contains ':' = true) :
    parse_script_with_characters script
      = (((splitlines script).map (fun l => pyStripList l.toList)).filter
          (fun l => !l.isEmpty)).map taggedScene := by
  unfold parse_script_with_characters
  simpa using foldl_parseStep_tagged (splitlines script) [] false H

theorem parser_tagged_scripts_witness :
    (∀ l ∈ splitlines "NARRATOR: The world was quiet.\n  alice :  Hello there! \nBOB: Hi.",
       pyStripList l.toList ≠ [] → (pyStripList l.toList).contains ':' = true)
    ∧ parse_script_with_characters
        "NARRATOR: The world was quiet.\n  alice :  Hello there! \nBOB: Hi."
      = (((splitlines "NARRATOR: The world was quiet.\n  alice :  Hello there! \nBOB: Hi.").map
            (fun l => pyStripList l.toList)).filter (fun l => !l.isEmpty)).map taggedScene :=
  ⟨by decide, parser_tagged_scripts
    "NARRATOR: The world was quiet.\n  alice :  Hello there! \nBOB: Hi." (by decide)⟩

/-! ### C5: continuation and blank-line handling -/

theorem appendToLast_concat (init : List Scene) (c t extra : String) :
    appendToLast (init ++ [⟨c, t⟩]) extra = init ++ [⟨c, t ++ " " ++ extra⟩] := by
  induction init with
  | nil => rfl
  | cons sc rest ih =>
    have hne : (rest ++ [(⟨c, t⟩ : Scene)]).isEmpty = false := by
      simp [List.isEmpty_iff]
    rw [List.cons_append, appendToLast, if_neg (by simp [hne]), ih]
    exact (List.cons_append _ _ _).symm

/-- C5: one loop iteration of the parser.  A blank line closes the open
scene (the flag becomes `false`, the scene list is unchanged); a non-blank
line without `':'` is appended to the open scene's text with exactly one
separating space; the same line with no open scene (start of script or
right after a blank line) starts a new scene attributed to `"NARRATOR"`. -/
theorem parser_continuation_rules (scenes init : List Scene) (c t : String)
    (b : Bool) (rawB raw : String)
    (hB : pyStripList rawB.toList = [])
    (hnb : pyStripList raw.toList ≠ [])
    (hnc : (pyStripList raw.toList).contains ':' = false) :
    parseStep (scenes, b) rawB = (scenes, false)
    ∧ parseStep (init ++ [⟨c, t⟩], true) raw
        = (init ++ [⟨c, t ++ " " ++ String.mk (pyStripList raw.toList)⟩], true)
    ∧ parseStep (scenes, false) raw
        = (scenes ++ [⟨"NARRATOR", String.mk (pyStripList raw.toList)⟩], true) := by
  have hB' : pyStripList rawB.data = [] := hB
  have hnb' : ¬ pyStripList raw.data = [] := hnb
  have hnc' : ':' ∉ pyStripList raw.data := by
    intro hmem
    have : (pyStripList raw.toList).contains ':' = true := by simpa using hmem
    rw [hnc] at this
    exact Bool.noConfusion this
  refine ⟨?_, ?_, ?_⟩
  · simp [parseStep, hB']
  · simp [parseStep, hnb', hnc', appendToLast_concat]
  · simp [parseStep, hnb', hnc']

theorem parser_continuation_rules_witness :
    pyStripList "  ".toList = []
    ∧ pyStripList "world again".toList ≠ []
    ∧ (pyStripList "world again".toList).contains ':' = false
    ∧ (parseStep ([⟨"A", "x"⟩], true) "  " = ([⟨"A", "x"⟩], false)
       ∧ parseStep ([] ++ [(⟨"A", "x"⟩ : Scene)], true) "world again"
           = ([] ++ [⟨"A", "x" ++ " " ++ String.mk (pyStripList "world again".toList)⟩], true)
       ∧ parseStep ([⟨"A", "x"⟩], false) "world again"
           = ([⟨"A", "x"⟩] ++ [⟨"NARRATOR", String.mk (pyStripList "world again".toList)⟩], true)) :=
  ⟨by decide, by decide, by decide,
   parser_continuation_rules [⟨"A", "x"⟩] [] "A" "x" true "  " "world again"
     (by decide) (by decide) (by decide)⟩

/-! ### C9: scene text is non-empty after trimming — refuted in general,
holds when every separator line carries non-blank text after the `':'`. -/

/-- C9 counterexample: the claim "every scene produced by the parser, for
every input script, has text content non-empty after trimming" fails at the
concrete script `"A:"`, whose single scene has empty text. -/
theorem parser_text_nonempty_counterexample :
    ¬ (∀ sc ∈ parse_script_with_characters "A:", pyStrip sc.text ≠ "") := by
  intro h
  exact h ⟨"A", ""⟩ (by decide) (by decide)

theorem appendToLast_pres (P : String → Prop)
    (hP : ∀ t extra, P t → P (t ++ " " ++ extra)) :
    ∀ (L : List Scene) (extra : String), (∀ sc ∈ L, P sc.text) →
      ∀ sc ∈ appendToLast L extra, P sc.text := by
  intro L
  induction L with
  | nil => intro extra _ sc hsc; simp [appendToLast] at hsc
  | cons a rest ih =>
    intro extra hall sc hsc
    rw [appendToLast] at hsc
    by_cases hr : rest.isEmpty
    · rw [if_pos hr] at hsc
      rcases List.mem_singleton.mp hsc with rfl
      exact hP a.text extra (hall a (List.mem_cons_self a rest))
    · rw [if_neg hr] at hsc
      rcases List.mem_cons.mp hsc with rfl | hsc'
      · exact hall sc (List.mem_cons_self sc rest)
      · exact ih extra (fun s hs => hall s (List.mem_cons_of_mem a hs)) sc hsc'

theorem foldl_parseStep_text_nonspace (lines : List String) :
    ∀ (acc : List Scene) (b : Bool),
      (∀ l ∈ lines, (pyStripList l.toList).contains ':' = true →
         pyStripList (((pyStripList l.toList).dropWhile (fun c => c ≠ ':')).drop 1) ≠ []) →
      (∀ sc ∈ acc, ∃ c ∈ sc.text.toList, isPySpace c = false) →
      ∀ sc ∈ (lines.foldl parseStep (acc, b)).1,
        ∃ c ∈ sc.text.toList, isPySpace c = false := by
  induction lines with
  | nil => intro acc b _ hacc; simpa using hacc
  | cons l rest ih =>
    intro acc b H hacc
    have Hrest : ∀ l' ∈ rest, (pyStripList l'.toList).contains ':' = true →
        pyStripList (((pyStripList l'.toList).dropWhile (fun c => c ≠ ':')).drop 1) ≠ [] := by
      intro l' hl'; exact H l' (List.mem_cons_of_mem l hl')
    rw [List.foldl_cons]
    by_cases hl : (pyStripList l.toList).isEmpty
    · have hl' : pyStripList l.data = [] := List.isEmpty_iff.mp hl
      have hstep : parseStep (acc, b) l = (acc, false) := by simp [parseStep, hl']
      rw [hstep]
      exact ih acc false Hrest hacc
    · have hne : pyStripList l.toList ≠ [] := by simpa [List.isEmpty_iff] using hl
      have hne' : ¬ pyStripList l.data = [] := hne
      by_cases hc : (pyStripList l.toList).contains ':' = true
      · -- tagged line: a fresh scene with stripped text after the colon
        have hc' : ':' ∈ pyStripList l.data := by simpa using hc
        have hstep : parseStep (acc, b) l
            = (acc ++ [taggedScene (pyStripList l.toList)], true) := by
          simp [parseStep, hne', hc']
        rw [hstep]
        apply ih _ true Hrest
        intro sc hsc
        rcases List.mem_append.mp hsc with hsc' | hsc'
        · exact hacc sc hsc'
        · rcases List.mem_singleton.mp hsc' with rfl
          have htext := H l (List.mem_cons_self l rest) hc
          rcases pyStripList_ne_nil_nonspace htext with ⟨ch, hch, hchs⟩
          exact ⟨ch, hch, hchs⟩
      · -- continuation line
        have hc0 : (pyStripList l.toList).contains ':' = false :=
          Bool.eq_false_iff.mpr hc
        have hc' : ':' ∉ pyStripList l.data := by
          intro hmem
          have : (pyStripList l.toList).contains ':' = true := by simpa using hmem
          rw [hc0] at this
          exact Bool.noConfusion this
        have hline : ∃ ch ∈ pyStripList l.toList, isPySpace ch = false :=
          pyStripList_ne_nil_nonspace hne
        by_cases hb : b
        · have hstep : parseStep (acc, b) l
              = (appendToLast acc (String.mk (pyStripList l.toList)), true) := by
            simp [parseStep, hne', hc', hb]
          rw [hstep]
          apply ih _ true Hrest
          apply appendToLast_pres (fun t => ∃ c ∈ t.toList, isPySpace c = false)
          · intro t extra ⟨ch, hch, hchs⟩
            refine ⟨ch, ?_, hchs⟩
            change ch ∈ (t ++ " " ++ extra).data
            rw [String.data_append, String.data_append]
            exact List.mem_append_left _ (List.mem_append_left _ hch)
          · exact hacc
        · have hb' : b = false := Bool.eq_false_iff.mpr hb
          have hstep : parseStep (acc, b) l
              = (acc ++ [⟨"NARRATOR", String.mk (pyStripList l.toList)⟩], true) := by
            simp [parseStep, hne', hc', hb']
          rw [hstep]
          apply ih _ true Hrest
          intro sc hsc
          rcases List.mem_append.mp hsc with hsc' | hsc'
          · exact hacc sc hsc'
          · rcases List.mem_singleton.mp hsc' with rfl
            rcases hline with ⟨ch, hch, hchs⟩
            exact ⟨ch, hch, hchs⟩

/-- C9 (amended): if every separator line of the script has non-blank text
after its first `':'`, then every scene the parser produces has text that is
non-empty after trimming.  (Unrestricted, the claim fails: see the
counterexample, script `"A:"`.) -/
theorem parser_scene_text_nonempty (script : String)
    (H : ∀ l ∈ splitlines script, (pyStripList l.toList).contains ':' = true →
       pyStripList (((pyStripList l.toList).dropWhile (fun c => c ≠ ':')).drop 1) ≠ []) :
    ∀ sc ∈ parse_script_with_characters script, pyStrip sc.text ≠ "" := by
  intro sc hsc
  have hub := foldl_parseStep_text_nonspace (splitlines script) [] false H
    (by intro s hs; simp at hs) sc hsc
  rcases hub with ⟨ch, hch, hchs⟩
  intro hempty
  have : pyStripList sc.text.toList = [] := (mk_eq_empty_iff _).mp hempty
  exact pyStripList_ne_nil_of_nonspace hch hchs this

theorem parser_scene_text_nonempty_witness :
    pyStrip "hi there" ≠ "" ∧ pyStrip "world" ≠ "" :=
  ⟨parser_scene_text_nonempty "A: hi there\n\nworld" (by decide)
     ⟨"A", "hi there"⟩ (by decide),
   parser_scene_text_nonempty "A: hi there\n\nworld" (by decide)
     ⟨"NARRATOR", "world"⟩ (by decide)⟩

/-! ### C7: per-scene asset selection (src/main.py lines 218-222) -/

/-- The asset chosen for scene index `i` (src/main.py lines 218-222):
`if images: asset = images[i % len(images)] elif clips:
asset = clips[i % len(clips)]` and otherwise no asset, which triggers the
text-slide placeholder branch (lines 233-249). -/
def select_asset (i : Nat) (images clips : List String) : Option String :=
  if !images.isEmpty then images[i % images.length]?
  else if !clips.isEmpty then clips[i % clips.length]?
  else none

/-- C7: the selection policy — images round-robin first, else clips
round-robin, else no asset; with two images the choice alternates between
them by parity of the scene index. -/
theorem select_asset_policy (i : Nat) (images clips : List String) :
    (images ≠ [] → select_asset i images clips = images[i % images.length]?)
    ∧ (images = [] → clips ≠ [] →
        select_asset i images clips = clips[i % clips.length]?)
    ∧ (images = [] → clips = [] → select_asset i images clips = none)
    ∧ (∀ a b : String, ∀ k : Nat,
        select_asset (2 * k) [a, b] clips = some a
        ∧ select_asset (2 * k + 1) [a, b] clips = some b) := by
  refine ⟨?_, ?_, ?_, ?_⟩
  · intro h
    have h' : images.isEmpty = false := by simp [List.isEmpty_iff, h]
    simp [select_asset, h']
  · intro h hc
    have hc' : clips.isEmpty = false := by simp [List.isEmpty_iff, hc]
    simp [select_asset, h, hc']
  · intro h hc
    simp [select_asset, h, hc]
  · intro a b k
    have h2 : (2 * k) % 2 = 0 := Nat.mul_mod_right 2 k
    have h3 : (2 * k + 1) % 2 = 1 := by omega
    constructor
    · simp [select_asset, h2]
    · simp [select_asset, h3]

theorem select_asset_policy_witness :
    select_asset 4 ["img0", "img1"] ["c"] = some "img0"
    ∧ select_asset 5 ["img0", "img1"] ["c"] = some "img1"
    ∧ select_asset 3 [] ["c0", "c1"] = some "c1"
    ∧ select_asset 7 [] [] = none :=
  ⟨((select_asset_policy 4 ["img0", "img1"] ["c"]).2.2.2 "img0" "img1" 2).1,
   ((select_asset_policy 5 ["img0", "img1"] ["c"]).2.2.2 "img0" "img1" 2).2,
   (select_asset_policy 3 [] ["c0", "c1"]).2.1 rfl (by decide),
   (select_asset_policy 7 [] []).2.2.1 rfl rfl⟩

/-! ### C8: scene duration policy (src/main.py lines 230, 232, 249) -/

/-- `int(max(4, len(sc["text"].split())/2.5))` (src/main.py line 230, and
identically at lines 232 and 249).  For a natural word count `w`, the float
expression `w / 2.5` denotes the rational `2*w/5` exactly up to rounding
that never crosses an integer, and `int` truncates the non-negative result
downwards, so the whole expression is `max 4 (2 * w / 5)` in natural-number
arithmetic. -/
def sceneDuration (text : String) : Nat :=
  max 4 (2 * wordCount text / 5)

/-- C8: the target duration is `floor (max 4 (wordCount / 2.5))`, never
below the 4-second floor; the 10-word example text and a 2-word text both
get exactly 4 seconds. -/
theorem scene_duration_policy (text : String) :
    sceneDuration text = Nat.floor (max (4 : ℚ) ((wordCount text : ℚ) / 2.5))
    ∧ 4 ≤ sceneDuration text
    ∧ sceneDuration "one two three four five six seven eight nine ten" = 4
    ∧ sceneDuration "hi there" = 4 := by
  refine ⟨?_, le_max_left _ _, by decide, by decide⟩
  have hdiv : ((wordCount text : ℚ)) / 2.5 = ((2 * wordCount text : ℕ) : ℚ) / ((5 : ℕ) : ℚ) := by
    push_cast
    ring
  rcases le_total ((wordCount text : ℚ) / 2.5) 4 with h | h
  · rw [max_eq_left h]
    have hw : (wordCount text : ℚ) ≤ 10 := by
      rw [div_le_iff₀ (by norm_num : (0 : ℚ) < 2.5)] at h
      linarith
    have hw' : wordCount text ≤ 10 := by exact_mod_cast hw
    have : 2 * wordCount text / 5 ≤ 4 := by omega
    simp [sceneDuration, max_eq_left this, Nat.floor_ofNat]
  · rw [max_eq_right h]
    rw [hdiv, Nat.floor_div_eq_div]
    have hw : (10 : ℚ) ≤ (wordCount text : ℚ) := by
      rw [le_div_iff₀ (by norm_num : (0 : ℚ) < 2.5)] at h
      linarith
    have hw' : 10 ≤ wordCount text := by exact_mod_cast hw
    have : 4 ≤ 2 * wordCount text / 5 := by omega
    simp [sceneDuration, max_eq_right this]

/-! ### C10: voice-provider dispatch (src/main.py lines 32-35, 78-97) -/

/-- The synthesis backend actually invoked.  `gtts` is the default
synthesizer (`synthesize_with_gtts`, src/main.py lines 78-81);
`externalProvider` stands for the ElevenLabs/Azure-style backends the
comment at lines 93-95 anticipates — no code path constructs it. -/
inductive TTSBackend
  | gtts (lang : String)
  | externalProvider (provider : String)
deriving DecidableEq

/-- `CHAR_VOICE_MAP` (src/main.py lines 32-35), as an association list. -/
def CHAR_VOICE_MAP : List (String × String) := [("NARRATOR", "gtts_en")]

/-- `synthesize_with_gtts` (src/main.py lines 78-81): invokes the gTTS
backend and returns the output path it was given.  The pair records which
backend ran and the returned path. -/
def synthesize_with_gtts (text out_path lang : String) : TTSBackend × String :=
  (TTSBackend.gtts lang, out_path)

/-- `synthesize_character_voice` (src/main.py lines 83-97).  The voice map
is a parameter because the source comment says the global map may be
overridden at runtime.  `provider = CHAR_VOICE_MAP.get(character.upper(),
"gtts_en")`; both the `provider.startswith("gtts")` branch and the
placeholder branch for other providers call `synthesize_with_gtts`. -/
def synthesize_character_voice (voiceMap : List (String × String))
    (character text out_path : String) : TTSBackend × String :=
  let provider := (voiceMap.lookup (pyUpper character)).getD "gtts_en"
  if provider.startsWith "gtts" then synthesize_with_gtts text out_path "en"
  else synthesize_with_gtts text out_path "en"

/-- C10: for every voice map (hence every speaker label, mapped to any
provider string or unmapped) the dispatch invokes the default gTTS backend
and returns exactly the given output path; the non-default backend is never
invoked. -/
theorem voice_dispatch_always_gtts (voiceMap : List (String × String))
    (character text out_path : String) :
    synthesize_character_voice voiceMap character text out_path
      = (TTSBackend.gtts "en", out_path) := by
  unfold synthesize_character_voice synthesize_with_gtts
  exact ite_self _

/-! ### Job store model (src/main.py lines 24, 184-281, 300-327, 336-349)

`worker_render_movie` mutates only the five fields of its own job record.
We model one record as `JobState` and an execution as the list of record
states after each individual field write (write granularity).  The external
executors — gTTS synthesis, the moviepy rendering/mux/concat/preview calls —
are opaque: an `Env` assigns each of them either success or a raised
exception message.  The raise of `concat_videos` on an empty clip list
(src/main.py lines 158-159) is source logic, not an external outcome, and is
modelled explicitly. -/

structure JobState where
  status : String
  progress : Nat
  file : Option String
  preview : Option String
  error : Option String
deriving DecidableEq

def setStatus (s : JobState) (v : String) : JobState :=
  ⟨v, s.progress, s.file, s.preview, s.error⟩

def setProgress (s : JobState) (p : Nat) : JobState :=
  ⟨s.status, p, s.file, s.preview, s.error⟩

def setFile (s : JobState) (v : Option String) : JobState :=
  ⟨s.status, s.progress, v, s.preview, s.error⟩

def setPreview (s : JobState) (v : Option String) : JobState :=
  ⟨s.status, s.progress, s.file, v, s.error⟩

def setError (s : JobState) (v : Option String) : JobState :=
  ⟨s.status, s.progress, s.file, s.preview, v⟩

/-- Outcomes of the opaque external stage calls for one job run: `none`
means the call succeeds, `some m` means it raises an exception whose
`str(e)` is `m`.  `tts i` is the `synthesize_character_voice` call for scene
`i` (line 207); `visual i` covers the whole per-scene visual rendering
(lines 217-249: asset selection, `clip_trim_or_loop` / `image_to_video` /
the PIL placeholder); `mux i` is `mux_video_with_audio` (line 254);
`concat` is the external part of `concat_videos` (line 262); `preview` is
`generate_preview` (line 268). -/
structure Env where
  tts : Nat → Option String
  visual : Nat → Option String
  mux : Nat → Option String
  concat : Option String
  preview : Option String

/-- The stage invocations the orchestrator can make, in program order. -/
inductive StageCall
  | tts (i : Nat)
  | visual (i : Nat)
  | mux (i : Nat)
  | concat
  | preview
deriving DecidableEq

/-- `xs` is an initial segment of `ys`. -/
def initSeg {α : Type} (xs ys : List α) : Prop := ∃ t, xs ++ t = ys

/-- The three writes of the `except` handler (src/main.py lines 278-281):
`status = "error"`, `error = str(e)`, `progress = 0`, in that order. -/
def errorWrites (s : JobState) (m : String) : List JobState :=
  [setStatus s "error",
   setError (setStatus s "error") (some m),
   setProgress (setError (setStatus s "error") (some m)) 0]

/-- One of the two per-scene loops (lines 203-210 and 216-257), abstracted
over the effect of the loop body and its progress formula
`base + int(coef * (i+1) / max(1, n))`.  Returns the progress values
written, the stage calls made, and the first raised message if any;
iteration stops at the first raise. -/
def sceneLoop (eff : Nat → Option String) (cOk cF : Nat → List StageCall)
    (base coef n : Nat) : List Nat → List Nat × List StageCall × Option String
  | [] => ([], [], none)
  | i :: rest =>
    match eff i with
    | some m => ([], cF i, some m)
    | none =>
      let r := sceneLoop eff cOk cF base coef n rest
      ((base + coef * (i + 1) / max 1 n) :: r.1, cOk i ++ r.2.1, r.2.2)

/-- Effect of one iteration of the TTS loop body (line 207). -/
def ttsEff (env : Env) (i : Nat) : Option String := env.tts i

/-- Effect of one iteration of the render/mux loop body (lines 217-254):
the visual rendering runs first, then the mux; the first raise wins. -/
def renderEff (env : Env) (i : Nat) : Option String :=
  match env.visual i with
  | some m => some m
  | none => env.mux i

def ttsCalls (i : Nat) : List StageCall := [StageCall.tts i]

def renderCallsOk (i : Nat) : List StageCall :=
  [StageCall.visual i, StageCall.mux i]

/-- Calls made by a failing render/mux iteration: if the visual rendering
raised, the mux is never reached. -/
def renderCallsFail (env : Env) (i : Nat) : List StageCall :=
  match env.visual i with
  | some _ => [StageCall.visual i]
  | none => [StageCall.visual i, StageCall.mux i]

/-- `os.path.join(OUTPUT_DIR, f"{title}_{job_id}.mp4")` (line 261). -/
def out_file (job_id title : String) : String :=
  "outputs/" ++ title ++ "_" ++ job_id ++ ".mp4"

/-- `os.path.join(OUTPUT_DIR, f"{title}_{job_id}_preview.mp4")` (line 267). -/
def preview_file (job_id title : String) : String :=
  "outputs/" ++ title ++ "_" ++ job_id ++ "_preview.mp4"

/-- `os.path.join(TMP_DIR, f"{job_id}_scene_{i}_final.mp4")` (line 253);
`scene_video_files` holds one such path per scene. -/
def scene_final_path (job_id : String) (i : Nat) : String :=
  "tmp/" ++ job_id ++ "_scene_" ++ toString i ++ "_final.mp4"

/-- The guard of `concat_videos` (src/main.py lines 158-159): an empty clip
list raises `ValueError("No videos to concat")` before any external work;
otherwise the outcome is the external encoder's. -/
def concatResult (env : Env) (videos : List String) : Option String :=
  if videos.isEmpty then some "No videos to concat" else env.concat

/-- The state at the last progress write of a loop segment, i.e. the input
state with its progress replaced by the last written value (or kept if the
loop wrote nothing). -/
def lastOf (s : JobState) (ps : List Nat) : JobState :=
  setProgress s (ps.getLastD s.progress)

/-- Lines 260-281 from the `progress = 75` write on: concatenation, the
`progress = 88` write, preview generation, then the terminal block
`preview`, `file`, `progress = 100`, `status = "done"` — or the error
writes at the first raise. -/
def tailStates (env : Env) (job_id title : String) (videos : List String)
    (s : JobState) : List JobState × List StageCall × Option String :=
  let s5 := setProgress s 75
  match concatResult env videos with
  | some m => (s5 :: errorWrites s5 m, [StageCall.concat], some m)
  | none =>
    let s6 := setProgress s5 88
    match env.preview with
    | some m => (s5 :: s6 :: errorWrites s6 m,
                 [StageCall.concat, StageCall.preview], some m)
    | none =>
      let s7 := setPreview s6 (some (preview_file job_id title))
      let s8 := setFile s7 (some (out_file job_id title))
      let s9 := setProgress s8 100
      let s10 := setStatus s9 "done"
      ([s5, s6, s7, s8, s9, s10],
       [StageCall.concat, StageCall.preview], none)

/-- Lines 213-281 from the `progress = 40` write on: the render/mux loop,
then the tail. -/
def midStates (env : Env) (n : Nat) (job_id title : String) (s : JobState) :
    List JobState × List StageCall × Option String :=
  let s4 := setProgress s 40
  let r2 := sceneLoop (renderEff env) renderCallsOk (renderCallsFail env)
    40 30 n (List.range n)
  match r2.2.2 with
  | some m =>
      (s4 :: r2.1.map (setProgress s4) ++ errorWrites (lastOf s4 r2.1) m,
       r2.2.1, some m)
  | none =>
      let t := tailStates env job_id title
        ((List.range n).map (scene_final_path job_id)) (lastOf s4 r2.1)
      (s4 :: r2.1.map (setProgress s4) ++ t.1, r2.2.1 ++ t.2.1, t.2.2)

/-- `worker_render_movie` (src/main.py lines 184-281) as a function from the
stage-outcome environment and the job inputs to (1) the list of job-record
states after each `JOB_STORE` write it performs, in order, starting with
the `progress = 5` write at line 194, (2) the list of stage invocations it
makes, and (3) the exception message caught by the handler, if any.  The
uploaded image/clip lists, resolution and fps influence only what the
opaque executors do with the scratch files, which `Env` abstracts, so they
do not appear as parameters. -/
def worker_render_movie (env : Env) (script job_id title : String)
    (s0 : JobState) : List JobState × List StageCall × Option String :=
  let n := (parse_script_with_characters script).length
  let s1 := setProgress s0 5
  let s2 := setProgress s1 10
  let s3 := setProgress s2 15
  let r1 := sceneLoop (ttsEff env) ttsCalls ttsCalls 15 20 n (List.range n)
  match r1.2.2 with
  | some m =>
      (s1 :: s2 :: s3 :: r1.1.map (setProgress s3)
         ++ errorWrites (lastOf s3 r1.1) m,
       r1.2.1, some m)
  | none =>
      let mid := midStates env n job_id title (lastOf s3 r1.1)
      (s1 :: s2 :: s3 :: r1.1.map (setProgress s3) ++ mid.1,
       r1.2.1 ++ mid.2.1, mid.2.2)

/-- The record created at submission (line 301):
`{"status": "pending", "progress": 0, "file": None, "preview": None}`. -/
def initialJob : JobState := ⟨"pending", 0, none, none, none⟩

/-- The record state right before the worker task starts, after the
endpoint's `status = "running"` (line 323) and `progress = 1` (line 324)
writes. -/
def runningStart : JobState := ⟨"running", 1, none, none, none⟩

/-- All states a job's record goes through, one per field write: creation,
the two endpoint writes, then every worker write. -/
def jobTrace (env : Env) (script job_id title : String) : List JobState :=
  initialJob :: setStatus initialJob "running" :: runningStart ::
    (worker_render_movie env script job_id title runningStart).1

/-- The record's final state, once the worker run has finished. -/
def finalJobState (env : Env) (script job_id title : String) : JobState :=
  (jobTrace env script job_id title).getLastD initialJob

/-- The full stage sequence of a run with `n` scenes that reaches the end
of the `try` block. -/
def allCalls (n : Nat) : List StageCall :=
  ((List.range n).flatMap ttsCalls)
    ++ ((List.range n).flatMap renderCallsOk)
    ++ [StageCall.concat, StageCall.preview]

/-- Result of `/download/{job_id}` (src/main.py lines 336-342) as seen by
the client: `none` is the 404 "file not ready" answer, returned both for an
unknown job and for a job whose `file` field is unset; otherwise the path
served. -/
def download_endpoint (job : Option JobState) : Option String :=
  match job with
  | none => none
  | some j => j.file

/-- Result of `/preview/{job_id}` (src/main.py lines 344-349). -/
def preview_endpoint (job : Option JobState) : Option String :=
  match job with
  | none => none
  | some j => j.preview

/-- An environment in which every external stage succeeds. -/
def envOK : Env := ⟨fun _ => none, fun _ => none, fun _ => none, none, none⟩

/-- An environment in which the very first TTS call raises `"boom"`. -/
def envFail : Env := ⟨fun _ => some "boom", fun _ => none, fun _ => none, none, none⟩

/-! ### Helper lemmas for the orchestrator proofs -/

theorem initSeg_refl {α : Type} (xs : List α) : initSeg xs xs := ⟨[], List.append_nil xs⟩

theorem initSeg_append {α : Type} (xs zs : List α) : initSeg xs (xs ++ zs) := ⟨zs, rfl⟩

theorem initSeg_trans {α : Type} {xs ys zs : List α}
    (h1 : initSeg xs ys) (h2 : initSeg ys zs) : initSeg xs zs := by
  rcases h1 with ⟨a, ha⟩
  rcases h2 with ⟨b, hb⟩
  exact ⟨a ++ b, by rw [← List.append_assoc, ha, hb]⟩

theorem initSeg_cons_left {α : Type} {xs ys : List α} (a : α)
    (h : initSeg xs ys) : initSeg (a :: xs) (a :: ys) := by
  rcases h with ⟨tl, htl⟩
  exact ⟨tl, by rw [List.cons_append, htl]⟩

theorem initSeg_append_left {α : Type} (as : List α) {xs ys : List α}
    (h : initSeg xs ys) : initSeg (as ++ xs) (as ++ ys) := by
  rcases h with ⟨tl, htl⟩
  exact ⟨tl, by rw [List.append_assoc, htl]⟩

theorem getLastD_irrel {α : Type} {ys : List α} (h : ys ≠ []) (a d : α) :
    ys.getLastD a = ys.getLastD d := by
  rcases ys with _ | ⟨y, ys'⟩
  · exact absurd rfl h
  · rw [List.getLastD_cons, List.getLastD_cons]

theorem getLastD_append_right {α : Type} (xs : List α) {ys : List α}
    (h : ys ≠ []) (d : α) : (xs ++ ys).getLastD d = ys.getLastD d := by
  induction xs generalizing d with
  | nil => rfl
  | cons a rest ih =>
    rw [List.cons_append, List.getLastD_cons]
    rcases rest with _ | ⟨b, rest'⟩
    · simp only [List.nil_append]
      exact getLastD_irrel h a d
    · rw [ih]
      exact getLastD_irrel h a d

/-- The progress values written by a scene loop are the per-index formula
mapped over the processed prefix of the index list. -/
theorem sceneLoop_take (eff : Nat → Option String) (cOk cF : Nat → List StageCall)
    (base coef n : Nat) :
    ∀ il : List Nat, ∃ k,
      (sceneLoop eff cOk cF base coef n il).1
        = (il.take k).map (fun i => base + coef * (i + 1) / max 1 n) := by
  intro il
  induction il with
  | nil => exact ⟨0, rfl⟩
  | cons i rest ih =>
    rcases h : eff i with _ | m
    · rcases ih with ⟨k, hk⟩
      refine ⟨k + 1, ?_⟩
      simp only [sceneLoop, h, List.take_succ_cons, List.map_cons]
      rw [hk]
    · exact ⟨0, by simp only [sceneLoop, h, List.take_zero, List.map_nil]⟩

/-- A loop that finishes without a raise processed every index and made
exactly the nominal calls. -/
theorem sceneLoop_none (eff : Nat → Option String) (cOk cF : Nat → List StageCall)
    (base coef n : Nat) :
    ∀ il : List Nat, (sceneLoop eff cOk cF base coef n il).2.2 = none →
      (sceneLoop eff cOk cF base coef n il).1
          = il.map (fun i => base + coef * (i + 1) / max 1 n)
      ∧ (sceneLoop eff cOk cF base coef n il).2.1 = il.flatMap cOk := by
  intro il
  induction il with
  | nil => intro _; exact ⟨rfl, rfl⟩
  | cons i rest ih =>
    intro h
    rcases he : eff i with _ | m
    · have h' : (sceneLoop eff cOk cF base coef n rest).2.2 = none := by
        simpa only [sceneLoop, he] using h
      rcases ih h' with ⟨h1, h2⟩
      constructor
      · simp only [sceneLoop, he, List.map_cons]
        rw [h1]
      · simp only [sceneLoop, he, List.flatMap_cons]
        rw [h2]
    · exfalso
      simp only [sceneLoop, he] at h
      exact Option.noConfusion h

/-- The calls a scene loop makes form an initial segment of the nominal
call sequence, provided each failing iteration's calls are an initial
segment of a successful one's. -/
theorem sceneLoop_calls (eff : Nat → Option String) (cOk cF : Nat → List StageCall)
    (base coef n : Nat) (hcf : ∀ i, initSeg (cF i) (cOk i)) :
    ∀ il : List Nat,
      initSeg (sceneLoop eff cOk cF base coef n il).2.1 (il.flatMap cOk) := by
  intro il
  induction il with
  | nil => exact ⟨[], rfl⟩
  | cons i rest ih =>
    rcases he : eff i with _ | m
    · simp only [sceneLoop, he, List.flatMap_cons]
      exact initSeg_append_left (cOk i) ih
    · simp only [sceneLoop, he, List.flatMap_cons]
      exact initSeg_trans (hcf i) (initSeg_append (cOk i) _)

theorem renderCallsFail_initSeg (env : Env) (i : Nat) :
    initSeg (renderCallsFail env i) (renderCallsOk i) := by
  unfold renderCallsFail renderCallsOk
  rcases env.visual i with _ | m
  · exact initSeg_refl _
  · exact ⟨[StageCall.mux i], rfl⟩

/-- Bounds on a loop progress value: for `i < n` the written value lies
between `base` and `base + coef`. -/
theorem loopProg_bounds (base coef n i : Nat) (hi : i < n) :
    base ≤ base + coef * (i + 1) / max 1 n
    ∧ base + coef * (i + 1) / max 1 n ≤ base + coef := by
  constructor
  · exact Nat.le_add_right _ _
  · have h1 : coef * (i + 1) / max 1 n ≤ coef := by
      have hn : max 1 n = n := by omega
      rw [hn]
      have h2 : coef * (i + 1) ≤ coef * n := Nat.mul_le_mul_left coef (by omega)
      calc coef * (i + 1) / n ≤ coef * n / n := Nat.div_le_div_right h2
        _ = coef := by
            rw [Nat.mul_div_cancel]
            omega
    omega

/-- Monotonicity of the loop progress formula in the scene index. -/
theorem loopProg_mono (base coef n : Nat) {i j : Nat} (hij : i ≤ j) :
    base + coef * (i + 1) / max 1 n ≤ base + coef * (j + 1) / max 1 n := by
  have := Nat.div_le_div_right (c := max 1 n)
    (Nat.mul_le_mul_left coef (Nat.add_le_add_right hij 1))
  omega

/-- A job record that is mid-run: status `"running"`, some progress value,
no artifact paths, no error. -/
def runningAt (p : Nat) : JobState := ⟨"running", p, none, none, none⟩

theorem setProgress_runningAt (p q : Nat) :
    setProgress (runningAt p) q = runningAt q := rfl

theorem errorWrites_ne_nil (s : JobState) (m : String) : errorWrites s m ≠ [] := by
  simp [errorWrites]

/-- The caught-exception outcome and the final record state of every run:
a caught message `m` leaves `⟨error, 0, no file, no preview, m⟩`; a clean
run leaves `⟨done, 100, artifact path, preview path, no error⟩`. -/
theorem worker_final (env : Env) (script jid t : String) :
    (∀ m, (worker_render_movie env script jid t runningStart).2.2 = some m →
       finalJobState env script jid t = ⟨"error", 0, none, none, some m⟩)
    ∧ ((worker_render_movie env script jid t runningStart).2.2 = none →
       finalJobState env script jid t
         = ⟨"done", 100, some (out_file jid t), some (preview_file jid t), none⟩) := by
  have hE : ∀ (pre : List JobState) (s : JobState) (m : String) (d : JobState),
      (pre ++ errorWrites s m).getLastD d
        = ⟨"error", 0, s.file, s.preview, some m⟩ := by
    intro pre s m d
    rw [getLastD_append_right pre (errorWrites_ne_nil s m) d]
    rfl
  rcases h1 : (sceneLoop (ttsEff env) ttsCalls ttsCalls 15 20
      (parse_script_with_characters script).length
      (List.range (parse_script_with_characters script).length)).2.2 with _ | m1
  · -- TTS loop clean
    rcases h2 : (sceneLoop (renderEff env) renderCallsOk (renderCallsFail env)
        40 30 (parse_script_with_characters script).length
        (List.range (parse_script_with_characters script).length)).2.2 with _ | m2
    · -- render loop clean
      rcases h3 : concatResult env
          ((List.range (parse_script_with_characters script).length).map
            (scene_final_path jid)) with _ | m3
      · rcases h4 : env.preview with _ | m4
        · -- everything clean: done state
          constructor
          · intro m hm
            exfalso
            simp only [worker_render_movie, midStates, tailStates, h1, h2, h3, h4] at hm
            exact Option.noConfusion hm
          · intro _
            simp only [finalJobState, jobTrace, worker_render_movie, midStates,
              tailStates, h1, h2, h3, h4]
            simp only [List.getLastD_cons]
            rw [getLastD_append_right _ (by simp) _,
              getLastD_append_right _ (by simp) _]
            rfl
        · -- preview generation fails
          constructor
          · intro m hm
            simp only [worker_render_movie, midStates, tailStates, h1, h2, h3, h4] at hm
            obtain rfl := Option.some.inj hm
            simp only [finalJobState, jobTrace, worker_render_movie, midStates,
              tailStates, h1, h2, h3, h4]
            simp only [List.getLastD_cons]
            rw [getLastD_append_right _ (by simp) _,
              getLastD_append_right _ (by simp) _]
            rfl
          · intro hm
            exfalso
            simp only [worker_render_movie, midStates, tailStates, h1, h2, h3, h4] at hm
            exact Option.noConfusion hm
      · -- concatenation fails
        constructor
        · intro m hm
          simp only [worker_render_movie, midStates, tailStates, h1, h2, h3] at hm
          obtain rfl := Option.some.inj hm
          simp only [finalJobState, jobTrace, worker_render_movie, midStates,
            tailStates, h1, h2, h3]
          simp only [List.getLastD_cons]
          rw [getLastD_append_right _ (by simp) _,
            getLastD_append_right _ (by simp) _]
          rfl
        · intro hm
          exfalso
          simp only [worker_render_movie, midStates, tailStates, h1, h2, h3] at hm
          exact Option.noConfusion hm
    · -- render/mux loop fails
      constructor
      · intro m hm
        simp only [worker_render_movie, midStates, h1, h2] at hm
        obtain rfl := Option.some.inj hm
        simp only [finalJobState, jobTrace, worker_render_movie, midStates, h1, h2]
        simp only [List.getLastD_cons]
        rw [getLastD_append_right _ (by simp) _, hE]
        rfl
      · intro hm
        exfalso
        simp only [worker_render_movie, midStates, h1, h2] at hm
        exact Option.noConfusion hm
  · -- TTS loop fails
    constructor
    · intro m hm
      simp only [worker_render_movie, h1] at hm
      obtain rfl := Option.some.inj hm
      simp only [finalJobState, jobTrace, worker_render_movie, h1]
      simp only [List.getLastD_cons]
      rw [hE]
      rfl
    · intro hm
      exfalso
      simp only [worker_render_movie, h1] at hm
      exact Option.noConfusion hm

/-- On the empty script the parser yields no scenes, both per-scene loops
are empty, and `concat_videos` receives an empty list, so every run of the
worker ends with the caught `ValueError` message, whatever the external
stages would have done. -/
theorem worker_empty_script (env : Env) (jid t : String) :
    (worker_render_movie env "" jid t runningStart).2.2
      = some "No videos to concat" := rfl

/-- The stage invocations of any run form an initial segment of the nominal
stage sequence: a raise aborts everything after the raising stage. -/
theorem worker_calls_initSeg (env : Env) (script jid t : String) :
    initSeg (worker_render_movie env script jid t runningStart).2.1
      (allCalls (parse_script_with_characters script).length) := by
  have hA := sceneLoop_calls (ttsEff env) ttsCalls ttsCalls 15 20
    (parse_script_with_characters script).length
    (fun i => initSeg_refl (ttsCalls i))
    (List.range (parse_script_with_characters script).length)
  have hB := sceneLoop_calls (renderEff env) renderCallsOk (renderCallsFail env) 40 30
    (parse_script_with_characters script).length
    (renderCallsFail_initSeg env)
    (List.range (parse_script_with_characters script).length)
  rcases h1 : (sceneLoop (ttsEff env) ttsCalls ttsCalls 15 20
      (parse_script_with_characters script).length
      (List.range (parse_script_with_characters script).length)).2.2 with _ | m1
  · have hAfull := (sceneLoop_none (ttsEff env) ttsCalls ttsCalls 15 20
      (parse_script_with_characters script).length
      (List.range (parse_script_with_characters script).length) h1).2
    rcases h2 : (sceneLoop (renderEff env) renderCallsOk (renderCallsFail env)
        40 30 (parse_script_with_characters script).length
        (List.range (parse_script_with_characters script).length)).2.2 with _ | m2
    · have hBfull := (sceneLoop_none (renderEff env) renderCallsOk (renderCallsFail env)
        40 30 (parse_script_with_characters script).length
        (List.range (parse_script_with_characters script).length) h2).2
      rcases h3 : concatResult env
          ((List.range (parse_script_with_characters script).length).map
            (scene_final_path jid)) with _ | m3
      · rcases h4 : env.preview with _ | m4
        · -- complete run: the calls are exactly `allCalls`
          simp only [worker_render_movie, midStates, tailStates, h1, h2, h3, h4,
            hAfull, hBfull, allCalls]
          rw [← List.append_assoc]
          exact initSeg_refl _
        · simp only [worker_render_movie, midStates, tailStates, h1, h2, h3, h4,
            hAfull, hBfull, allCalls]
          rw [← List.append_assoc]
          exact initSeg_refl _
      · -- stopped at concat
        simp only [worker_render_movie, midStates, tailStates, h1, h2, h3,
          hAfull, hBfull, allCalls]
        rw [← List.append_assoc]
        exact initSeg_append_left _ ⟨[StageCall.preview], rfl⟩
    · -- stopped inside the render/mux loop
      simp only [worker_render_movie, midStates, h1, h2, hAfull, allCalls]
      refine initSeg_trans (initSeg_append_left _ hB) ?_
      exact initSeg_append _ _
  · -- stopped inside the TTS loop
    simp only [worker_render_movie, h1, allCalls]
    refine initSeg_trans hA ?_
    exact initSeg_trans
      (initSeg_append _
        ((List.range (parse_script_with_characters script).length).flatMap renderCallsOk))
      (initSeg_append _ _)

/-! ### Progress monotonicity infrastructure -/

theorem filter_errorWrites (s : JobState) (m : String) :
    (errorWrites s m).filter (fun x => x.status == "running") = [] := rfl

theorem filterRun_setProgress_map (s : JobState) (hs : s.status = "running")
    (ps : List Nat) :
    (((ps.map (setProgress s)).filter (fun x => x.status == "running")).map
      JobState.progress) = ps := by
  induction ps with
  | nil => rfl
  | cons p rest ih =>
    have hpred : ((setProgress s p).status == "running") = true := by
      simp [setProgress, hs]
    simp only [List.map_cons, List.filter_cons, hpred, if_true]
    rw [ih]
    rfl

/-- Pairwise order and bounds for the progress values a scene loop writes
over the index list `range n`. -/
theorem sceneLoop_progress_facts (eff : Nat → Option String)
    (cOk cF : Nat → List StageCall) (base coef n : Nat) :
    List.Pairwise (· ≤ ·) (sceneLoop eff cOk cF base coef n (List.range n)).1
    ∧ ∀ x ∈ (sceneLoop eff cOk cF base coef n (List.range n)).1,
        base ≤ x ∧ x ≤ base + coef := by
  rcases sceneLoop_take eff cOk cF base coef n (List.range n) with ⟨k, hk⟩
  rw [hk, List.take_range]
  constructor
  · have hp := List.pairwise_lt_range (min k n)
    exact hp.map _ (fun a b hab => loopProg_mono base coef n (Nat.le_of_lt hab))
  · intro x hx
    rcases List.mem_map.mp hx with ⟨i, hi, rfl⟩
    have hin : i < n := by
      have := List.mem_range.mp hi
      omega
    exact loopProg_bounds base coef n i hin

theorem pairwise_le_append_pivot {L M : List Nat} (b : Nat)
    (hL : List.Pairwise (· ≤ ·) L) (hM : List.Pairwise (· ≤ ·) M)
    (hLb : ∀ x ∈ L, x ≤ b) (hbM : ∀ y ∈ M, b ≤ y) :
    List.Pairwise (· ≤ ·) (L ++ M) :=
  List.pairwise_append.mpr
    ⟨hL, hM, fun x hx y hy => le_trans (hLb x hx) (hbM y hy)⟩

theorem pairwise_le_cons_bound (a : Nat) (L : List Nat)
    (hL : List.Pairwise (· ≤ ·) L) (h : ∀ x ∈ L, a ≤ x) :
    List.Pairwise (· ≤ ·) (a :: L) :=
  List.pairwise_cons.mpr ⟨h, hL⟩

/-- The progress sequence of a run that stops inside the TTS loop. -/
theorem chain_progress_ttsFail (L1 : List Nat)
    (h1 : List.Pairwise (· ≤ ·) L1) (hb1 : ∀ x ∈ L1, 15 ≤ x) :
    List.Chain' (· ≤ ·) (0 :: 1 :: 5 :: 10 :: 15 :: L1) := by
  rw [List.chain'_iff_pairwise]
  refine pairwise_le_cons_bound _ _ ?_ (by intro x _; omega)
  refine pairwise_le_cons_bound _ _ ?_ ?_
  · refine pairwise_le_cons_bound _ _ ?_ ?_
    · refine pairwise_le_cons_bound _ _ ?_ ?_
      · exact pairwise_le_cons_bound _ _ h1 hb1
      · intro x hx
        rcases List.mem_cons.mp hx with rfl | hx'
        · omega
        · have := hb1 x hx'; omega
    · intro x hx
      rcases List.mem_cons.mp hx with rfl | hx'
      · omega
      · rcases List.mem_cons.mp hx' with rfl | hx''
        · omega
        · have := hb1 x hx''; omega
  · intro x hx
    rcases List.mem_cons.mp hx with rfl | hx'
    · omega
    · rcases List.mem_cons.mp hx' with rfl | hx''
      · omega
      · rcases List.mem_cons.mp hx'' with rfl | hx3
        · omega
        · have := hb1 x hx3; omega

/-- The progress sequence of a run that reaches the render loop: the shared
prefix, the TTS band values, `40`, the render band values, then whatever
ordered tail of values `≥ 75` the remaining stages wrote. -/
theorem chain_progress_full (L1 L2 tail : List Nat)
    (h1 : List.Pairwise (· ≤ ·) L1) (hb1 : ∀ x ∈ L1, 15 ≤ x ∧ x ≤ 35)
    (h2 : List.Pairwise (· ≤ ·) L2) (hb2 : ∀ x ∈ L2, 40 ≤ x ∧ x ≤ 70)
    (ht : List.Pairwise (· ≤ ·) tail) (hbt : ∀ x ∈ tail, 75 ≤ x) :
    List.Chain' (· ≤ ·) (0 :: 1 :: 5 :: 10 :: 15 :: (L1 ++ 40 :: (L2 ++ tail))) := by
  rw [List.chain'_iff_pairwise]
  have hM : List.Pairwise (· ≤ ·) (40 :: (L2 ++ tail)) := by
    refine pairwise_le_cons_bound _ _ ?_ ?_
    · refine pairwise_le_append_pivot 75 h2 ht ?_ hbt
      intro x hx
      have := hb2 x hx
      omega
    · intro x hx
      rcases List.mem_append.mp hx with hx' | hx'
      · have := hb2 x hx'; omega
      · have := hbt x hx'; omega
  have hMge : ∀ y ∈ 40 :: (L2 ++ tail), 40 ≤ y := by
    intro y hy
    rcases List.mem_cons.mp hy with rfl | hy'
    · omega
    · rcases List.mem_append.mp hy' with hy'' | hy''
      · exact (hb2 y hy'').1
      · have := hbt y hy''; omega
  have hbig : List.Pairwise (· ≤ ·) (L1 ++ 40 :: (L2 ++ tail)) := by
    refine pairwise_le_append_pivot 40 h1 hM ?_ hMge
    intro x hx
    have := hb1 x hx
    omega
  have hge15 : ∀ x ∈ L1 ++ 40 :: (L2 ++ tail), 15 ≤ x := by
    intro x hx
    rcases List.mem_append.mp hx with hx' | hx'
    · exact (hb1 x hx').1
    · have := hMge x hx'; omega
  refine pairwise_le_cons_bound _ _ ?_ (by intro x _; omega)
  refine pairwise_le_cons_bound _ _ ?_ ?_
  · refine pairwise_le_cons_bound _ _ ?_ ?_
    · refine pairwise_le_cons_bound _ _ ?_ ?_
      · exact pairwise_le_cons_bound _ _ hbig hge15
      · intro x hx
        rcases List.mem_cons.mp hx with rfl | hx'
        · omega
        · have := hge15 x hx'; omega
    · intro x hx
      rcases List.mem_cons.mp hx with rfl | hx'
      · omega
      · rcases List.mem_cons.mp hx' with rfl | hx''
        · omega
        · have := hge15 x hx''; omega
  · intro x hx
    rcases List.mem_cons.mp hx with rfl | hx'
    · omega
    · rcases List.mem_cons.mp hx' with rfl | hx''
      · omega
      · rcases List.mem_cons.mp hx'' with rfl | hx3
        · omega
        · have := hge15 x hx3; omega

theorem status_setProgress (s : JobState) (p : Nat) :
    (setProgress s p).status = s.status := rfl

theorem status_setStatus (s : JobState) (v : String) :
    (setStatus s v).status = v := rfl

theorem status_setPreview (s : JobState) (v : Option String) :
    (setPreview s v).status = s.status := rfl

theorem status_setFile (s : JobState) (v : Option String) :
    (setFile s v).status = s.status := rfl

theorem status_runningStart : runningStart.status = "running" := rfl

theorem status_initialJob : initialJob.status = "pending" := rfl

theorem progress_setProgress (s : JobState) (p : Nat) :
    (setProgress s p).progress = p := rfl

theorem progress_setStatus (s : JobState) (v : String) :
    (setStatus s v).progress = s.progress := rfl

theorem progress_setPreview (s : JobState) (v : Option String) :
    (setPreview s v).progress = s.progress := rfl

theorem progress_setFile (s : JobState) (v : Option String) :
    (setFile s v).progress = s.progress := rfl

theorem progress_runningStart : runningStart.progress = 1 := rfl

theorem progress_initialJob : initialJob.progress = 0 := rfl

/-- Progress writes made while `status = "running"` are non-decreasing, on
every run: the progress values of the running-status states of the write
trace form a `≤`-chain. -/
theorem worker_progress_chain (env : Env) (script jid t : String) :
    List.Chain' (· ≤ ·)
      (((jobTrace env script jid t).filter (fun s => s.status == "running")).map
        JobState.progress) := by
  have F1 := sceneLoop_progress_facts (ttsEff env) ttsCalls ttsCalls 15 20
    (parse_script_with_characters script).length
  have F2 := sceneLoop_progress_facts (renderEff env) renderCallsOk
    (renderCallsFail env) 40 30 (parse_script_with_characters script).length
  rcases h1 : (sceneLoop (ttsEff env) ttsCalls ttsCalls 15 20
      (parse_script_with_characters script).length
      (List.range (parse_script_with_characters script).length)).2.2 with _ | m1
  · rcases h2 : (sceneLoop (renderEff env) renderCallsOk (renderCallsFail env)
        40 30 (parse_script_with_characters script).length
        (List.range (parse_script_with_characters script).length)).2.2 with _ | m2
    · rcases h3 : concatResult env
          ((List.range (parse_script_with_characters script).length).map
            (scene_final_path jid)) with _ | m3
      · rcases h4 : env.preview with _ | m4
        · -- complete run: tail 75, 88, 88, 88, 100
          have hlist : ((jobTrace env script jid t).filter
                (fun s => s.status == "running")).map JobState.progress
              = 0 :: 1 :: 5 :: 10 :: 15 ::
                  ((sceneLoop (ttsEff env) ttsCalls ttsCalls 15 20
                    (parse_script_with_characters script).length
                    (List.range (parse_script_with_characters script).length)).1
                   ++ 40 :: ((sceneLoop (renderEff env) renderCallsOk
                      (renderCallsFail env) 40 30
                      (parse_script_with_characters script).length
                      (List.range (parse_script_with_characters script).length)).1
                   ++ [75, 88, 88, 88, 100])) := by
            simp only [jobTrace, worker_render_movie, midStates, tailStates,
              h1, h2, h3, h4]
            simp [status_setProgress, status_setStatus, status_runningStart,
              status_initialJob, status_setPreview, status_setFile,
              progress_setProgress, progress_setStatus, progress_runningStart,
              progress_initialJob, progress_setPreview, progress_setFile,
              filter_errorWrites, filterRun_setProgress_map, List.filter_append,
              lastOf]
          rw [hlist]
          exact chain_progress_full _ _ _ F1.1 F1.2 F2.1 F2.2
            (by decide) (by decide)
        · -- preview fails: tail 75, 88
          have hlist : ((jobTrace env script jid t).filter
                (fun s => s.status == "running")).map JobState.progress
              = 0 :: 1 :: 5 :: 10 :: 15 ::
                  ((sceneLoop (ttsEff env) ttsCalls ttsCalls 15 20
                    (parse_script_with_characters script).length
                    (List.range (parse_script_with_characters script).length)).1
                   ++ 40 :: ((sceneLoop (renderEff env) renderCallsOk
                      (renderCallsFail env) 40 30
                      (parse_script_with_characters script).length
                      (List.range (parse_script_with_characters script).length)).1
                   ++ [75, 88])) := by
            simp only [jobTrace, worker_render_movie, midStates, tailStates,
              h1, h2, h3, h4]
            simp [status_setProgress, status_setStatus, status_runningStart,
              status_initialJob, status_setPreview, status_setFile,
              progress_setProgress, progress_setStatus, progress_runningStart,
              progress_initialJob, progress_setPreview, progress_setFile,
              filter_errorWrites, filterRun_setProgress_map, List.filter_append,
              lastOf]
          rw [hlist]
          exact chain_progress_full _ _ _ F1.1 F1.2 F2.1 F2.2
            (by decide) (by decide)
      · -- concat fails: tail 75
        have hlist : ((jobTrace env script jid t).filter
              (fun s => s.status == "running")).map JobState.progress
            = 0 :: 1 :: 5 :: 10 :: 15 ::
                ((sceneLoop (ttsEff env) ttsCalls ttsCalls 15 20
                  (parse_script_with_characters script).length
                  (List.range (parse_script_with_characters script).length)).1
                 ++ 40 :: ((sceneLoop (renderEff env) renderCallsOk
                    (renderCallsFail env) 40 30
                    (parse_script_with_characters script).length
                    (List.range (parse_script_with_characters script).length)).1
                 ++ [75])) := by
          simp only [jobTrace, worker_render_movie, midStates, tailStates,
            h1, h2, h3]
          simp [status_setProgress, status_setStatus, status_runningStart,
            status_initialJob, status_setPreview, status_setFile,
            progress_setProgress, progress_setStatus, progress_runningStart,
            progress_initialJob, progress_setPreview, progress_setFile,
            filter_errorWrites, filterRun_setProgress_map, List.filter_append,
            lastOf]
        rw [hlist]
        exact chain_progress_full _ _ _ F1.1 F1.2 F2.1 F2.2
          (by decide) (by decide)
    · -- render/mux loop fails: no tail
      have hlist : ((jobTrace env script jid t).filter
            (fun s => s.status == "running")).map JobState.progress
          = 0 :: 1 :: 5 :: 10 :: 15 ::
              ((sceneLoop (ttsEff env) ttsCalls ttsCalls 15 20
                (parse_script_with_characters script).length
                (List.range (parse_script_with_characters script).length)).1
               ++ 40 :: (sceneLoop (renderEff env) renderCallsOk
                  (renderCallsFail env) 40 30
                  (parse_script_with_characters script).length
                  (List.range (parse_script_with_characters script).length)).1) := by
        simp only [jobTrace, worker_render_movie, midStates, h1, h2]
        simp [status_setProgress, status_setStatus, status_runningStart,
          status_initialJob, progress_setProgress, progress_setStatus,
          progress_runningStart, progress_initialJob, filter_errorWrites,
          filterRun_setProgress_map, List.filter_append, lastOf]
      rw [hlist]
      have := chain_progress_full
        (sceneLoop (ttsEff env) ttsCalls ttsCalls 15 20
          (parse_script_with_characters script).length
          (List.range (parse_script_with_characters script).length)).1
        (sceneLoop (renderEff env) renderCallsOk (renderCallsFail env) 40 30
          (parse_script_with_characters script).length
          (List.range (parse_script_with_characters script).length)).1
        [] F1.1 F1.2 F2.1 F2.2 (by decide) (by simp)
      simpa using this
  · -- TTS loop fails
    have hlist : ((jobTrace env script jid t).filter
          (fun s => s.status == "running")).map JobState.progress
        = 0 :: 1 :: 5 :: 10 :: 15 ::
            (sceneLoop (ttsEff env) ttsCalls ttsCalls 15 20
              (parse_script_with_characters script).length
              (List.range (parse_script_with_characters script).length)).1 := by
      simp only [jobTrace, worker_render_movie, h1]
      simp [status_setProgress, status_setStatus, status_runningStart,
        status_initialJob, progress_setProgress, progress_setStatus,
        progress_runningStart, progress_initialJob, filter_errorWrites,
        filterRun_setProgress_map, List.filter_append]
    rw [hlist]
    exact chain_progress_ttsFail _ F1.1 (fun x hx => (F1.2 x hx).1)

theorem append6_split {α : Type} (xs ys : List α) (a b c d e f : α) :
    xs ++ (ys ++ [a, b, c, d, e, f]) = (xs ++ (ys ++ [a, b])) ++ [c, d, e, f] := by
  simp

/-! ### C1, C2, C3, C6: the orchestrator claims -/

/-- C1: whenever any stage of a run raises (the caught message is `m`), the
orchestrator catches it: the job's final state is status `"error"` with
error message `m` and progress `0`, and the stages invoked form an initial
segment of the nominal stage sequence — everything after the raising stage
is aborted. -/
theorem orchestrator_catches_stage_errors (env : Env)
    (script job_id title m : String)
    (h : (worker_render_movie env script job_id title runningStart).2.2 = some m) :
    finalJobState env script job_id title = ⟨"error", 0, none, none, some m⟩
    ∧ initSeg (worker_render_movie env script job_id title runningStart).2.1
        (allCalls (parse_script_with_characters script).length) :=
  ⟨(worker_final env script job_id title).1 m h,
   worker_calls_initSeg env script job_id title⟩

theorem orchestrator_catches_stage_errors_witness :
    (worker_render_movie envFail "A: hi" "j" "t" runningStart).2.2 = some "boom"
    ∧ (finalJobState envFail "A: hi" "j" "t" = ⟨"error", 0, none, none, some "boom"⟩
       ∧ initSeg (worker_render_movie envFail "A: hi" "j" "t" runningStart).2.1
           (allCalls (parse_script_with_characters "A: hi").length)) :=
  ⟨rfl, orchestrator_catches_stage_errors envFail "A: hi" "j" "t" "boom" rfl⟩

/-- C2 counterexample: in the write trace of a clean run there is a state
with progress `100` whose status is still `"running"` — the `progress = 100`
write at line 272 precedes the `status = "done"` write at line 273 — so
"progress equals 100 iff status equals done" fails at write granularity. -/
theorem progress_100_iff_done_counterexample :
    ¬ (∀ s ∈ jobTrace envOK "A: hi" "j" "t",
         (s.progress = 100 ↔ s.status = "done")) := by
  decide

/-- C2 (amended): the progress values written while status is `"running"`
are non-decreasing, and in the final state of every run progress is `100`
iff status is `"done"`.  (At single-write granularity the unrestricted iff
fails in the one transient state between the `progress = 100` write and the
immediately following `status = "done"` write; see the counterexample.) -/
theorem progress_monotone_and_final_iff (env : Env)
    (script job_id title : String) :
    List.Chain' (· ≤ ·)
      (((jobTrace env script job_id title).filter
          (fun s => s.status == "running")).map JobState.progress)
    ∧ ((finalJobState env script job_id title).progress = 100
        ↔ (finalJobState env script job_id title).status = "done") := by
  refine ⟨worker_progress_chain env script job_id title, ?_⟩
  rcases h : (worker_render_movie env script job_id title runningStart).2.2 with _ | m
  · rw [(worker_final env script job_id title).2 h]
    exact ⟨fun _ => rfl, fun _ => rfl⟩
  · rw [(worker_final env script job_id title).1 m h]
    exact ⟨fun h' => absurd (show (0 : Nat) = 100 from h') (by decide),
      fun h' => absurd (show ("error" : String) = "done" from h') (by decide)⟩

/-- C3 counterexample: in the write trace of a clean run there is a state
(after the `preview` write at line 269, before the `file` and
`status = "done"` writes at lines 271-273) in which the preview path is
present while the status is still `"running"` and the file path is absent:
presence of the paths is not equivalent to `status = "done"` at write
granularity, and the two paths are not set in a single write. -/
theorem artifact_presence_counterexample :
    ¬ (∀ s ∈ jobTrace envOK "A: hi" "jj" "tt",
         ((s.file.isSome ↔ s.status = "done")
          ∧ (s.preview.isSome ↔ s.status = "done"))) := by
  decide

/-- C3 (amended): in every run's final state, the artifact path and the
preview path are each present iff status is `"done"`; the download and
preview endpoints answer not-ready (404) exactly when the job's final
status is not `"done"` (and always for an unknown job); and on a clean run
the trace ends with the four consecutive writes `preview`, `file`,
`progress = 100`, `status = "done"` — the two paths are set together in the
same uninterrupted block as the done transition.  (At single-write
granularity "present iff done" fails between those writes; see the
counterexample.) -/
theorem artifact_preview_done_retrieval (env : Env)
    (script job_id title : String) :
    ((finalJobState env script job_id title).file.isSome
        ↔ (finalJobState env script job_id title).status = "done")
    ∧ ((finalJobState env script job_id title).preview.isSome
        ↔ (finalJobState env script job_id title).status = "done")
    ∧ (download_endpoint (some (finalJobState env script job_id title)) = none
        ↔ (finalJobState env script job_id title).status ≠ "done")
    ∧ (preview_endpoint (some (finalJobState env script job_id title)) = none
        ↔ (finalJobState env script job_id title).status ≠ "done")
    ∧ download_endpoint none = none
    ∧ preview_endpoint none = none
    ∧ ((worker_render_movie env script job_id title runningStart).2.2 = none →
        ∃ pre, jobTrace env script job_id title = pre ++
          [⟨"running", 88, none, some (preview_file job_id title), none⟩,
           ⟨"running", 88, some (out_file job_id title),
             some (preview_file job_id title), none⟩,
           ⟨"running", 100, some (out_file job_id title),
             some (preview_file job_id title), none⟩,
           ⟨"done", 100, some (out_file job_id title),
             some (preview_file job_id title), none⟩]) := by
  have hmain : ((finalJobState env script job_id title).file.isSome
        ↔ (finalJobState env script job_id title).status = "done")
      ∧ ((finalJobState env script job_id title).preview.isSome
        ↔ (finalJobState env script job_id title).status = "done")
      ∧ (download_endpoint (some (finalJobState env script job_id title)) = none
        ↔ (finalJobState env script job_id title).status ≠ "done")
      ∧ (preview_endpoint (some (finalJobState env script job_id title)) = none
        ↔ (finalJobState env script job_id title).status ≠ "done") := by
    rcases h : (worker_render_movie env script job_id title runningStart).2.2 with _ | m
    · rw [(worker_final env script job_id title).2 h]
      exact ⟨⟨fun _ => rfl, fun _ => rfl⟩, ⟨fun _ => rfl, fun _ => rfl⟩,
        ⟨fun h' => Option.noConfusion h', fun hne => absurd rfl hne⟩,
        ⟨fun h' => Option.noConfusion h', fun hne => absurd rfl hne⟩⟩
    · rw [(worker_final env script job_id title).1 m h]
      exact ⟨⟨fun h' => Bool.noConfusion h',
          fun h' => absurd (show ("error" : String) = "done" from h') (by decide)⟩,
        ⟨fun h' => Bool.noConfusion h',
          fun h' => absurd (show ("error" : String) = "done" from h') (by decide)⟩,
        ⟨fun _ => show ("error" : String) ≠ "done" by decide, fun _ => rfl⟩,
        ⟨fun _ => show ("error" : String) ≠ "done" by decide, fun _ => rfl⟩⟩
  refine ⟨hmain.1, hmain.2.1, hmain.2.2.1, hmain.2.2.2, rfl, rfl, ?_⟩
  intro h
  rcases h1 : (sceneLoop (ttsEff env) ttsCalls ttsCalls 15 20
      (parse_script_with_characters script).length
      (List.range (parse_script_with_characters script).length)).2.2 with _ | m1
  · rcases h2 : (sceneLoop (renderEff env) renderCallsOk (renderCallsFail env)
        40 30 (parse_script_with_characters script).length
        (List.range (parse_script_with_characters script).length)).2.2 with _ | m2
    · rcases h3 : concatResult env
          ((List.range (parse_script_with_characters script).length).map
            (scene_final_path job_id)) with _ | m3
      · rcases h4 : env.preview with _ | m4
        · simp only [jobTrace, worker_render_movie, midStates, tailStates,
            h1, h2, h3, h4]
          simp only [append6_split]
          simp only [← List.cons_append]
          exact ⟨_, rfl⟩
        · exfalso
          simp only [worker_render_movie, midStates, tailStates, h1, h2, h3, h4] at h
          exact Option.noConfusion h
      · exfalso
        simp only [worker_render_movie, midStates, tailStates, h1, h2, h3] at h
        exact Option.noConfusion h
    · exfalso
      simp only [worker_render_movie, midStates, h1, h2] at h
      exact Option.noConfusion h
  · exfalso
    simp only [worker_render_movie, h1] at h
    exact Option.noConfusion h

theorem artifact_preview_done_retrieval_witness :
    (worker_render_movie envOK "A: hi" "j" "t" runningStart).2.2 = none
    ∧ (∃ pre, jobTrace envOK "A: hi" "j" "t" = pre ++
        [⟨"running", 88, none, some (preview_file "j" "t"), none⟩,
         ⟨"running", 88, some (out_file "j" "t"), some (preview_file "j" "t"), none⟩,
         ⟨"running", 100, some (out_file "j" "t"), some (preview_file "j" "t"), none⟩,
         ⟨"done", 100, some (out_file "j" "t"), some (preview_file "j" "t"), none⟩]) :=
  ⟨rfl, (artifact_preview_done_retrieval envOK "A: hi" "j" "t").2.2.2.2.2.2 rfl⟩

/-- C6 counterexample: with an empty script (and every external stage
succeeding) the job does end in status `"error"` — the orchestrator does
not survive the empty scene list. -/
theorem empty_script_counterexample :
    (finalJobState envOK "" "j" "t").status = "error" := rfl

/-- C6 (amended): the empty script parses to an empty scene sequence, and
the orchestrator then fails the job: with no scene clips,
`concat_videos` raises `ValueError("No videos to concat")`, the handler
catches it, and the job's final state is status `"error"`, progress `0`,
with that message — for every environment of external stage outcomes. -/
theorem empty_script_empty_scenes_job_errors (env : Env)
    (job_id title : String) :
    parse_script_with_characters "" = []
    ∧ finalJobState env "" job_id title
        = ⟨"error", 0, none, none, some "No videos to concat"⟩ :=
  ⟨rfl, (worker_final env "" job_id title).1 _ (worker_empty_script env job_id title)⟩
